import Mathlib

/-!
# Verification of `spice/stream-device.h`

A shallow embedding of the streaming-device wire protocol declared in
`src/spice/stream-device.h`: the C declarations (structures, enumeration,
protocol constant) with the C layout rule for naturally aligned members,
a framing layer (encoder and decoder) over those layouts, and the state
machine and message handler of the protocol engine.
-/

namespace StreamDevice

/-! ## C declarations and their layout -/

/-- Scalar types of `spice/types.h` that the header uses. -/
inductive CType where
  | uint8_t
  | uint16_t
  | uint32_t
  deriving DecidableEq, Repr

/-- Result of `sizeof` on a scalar type, in bytes. -/
def CType.sizeof : CType → Nat
  | .uint8_t => 1
  | .uint16_t => 2
  | .uint32_t => 4

/-- Alignment of a scalar type: a fixed-width integer is aligned to its own size. -/
def CType.alignof (t : CType) : Nat := t.sizeof

/-- One member of a structure: `ty name;` when `count` is `none`,
`ty name[n];` when `count` is `some n` (`some 0` is a trailing zero-length array). -/
structure Field where
  name : String
  ty : CType
  count : Option Nat
  deriving DecidableEq, Repr

/-- Bytes a member declares: `sizeof` of the member. -/
def Field.size (f : Field) : Nat :=
  match f.count with
  | none => f.ty.sizeof
  | some n => n * f.ty.sizeof

/-- Alignment of a member: that of its scalar (element) type. -/
def Field.align (f : Field) : Nat := f.ty.alignof

/-- A `typedef struct` of the header: its name and its members in declaration order. -/
structure StructDecl where
  name : String
  fields : List Field
  deriving DecidableEq, Repr

/-- Smallest multiple of `a` that is at least `off`. -/
def alignUp (off a : Nat) : Nat := (off + a - 1) / a * a

/-- A member together with the offset the compiler gives it. -/
structure Placed where
  field : Field
  offset : Nat
  deriving DecidableEq, Repr

/-- First byte after a placed member. -/
def Placed.stop (p : Placed) : Nat := p.offset + p.field.size

/-- The C layout rule: members are placed in declaration order, each at the
first offset not below the end of the previous member that satisfies the
member's alignment. -/
def layoutFrom (off : Nat) : List Field → List Placed
  | [] => []
  | f :: fs =>
    let o := alignUp off f.align
    ⟨f, o⟩ :: layoutFrom (o + f.size) fs

/-- Offset of the first byte after the last member laid out from `off`. -/
def endFrom (off : Nat) : List Field → Nat
  | [] => off
  | f :: fs => endFrom (alignUp off f.align + f.size) fs

/-- Members of a structure with their offsets. -/
def StructDecl.layout (s : StructDecl) : List Placed := layoutFrom 0 s.fields

/-- Alignment of a structure: the largest alignment among its members. -/
def StructDecl.alignof (s : StructDecl) : Nat :=
  (s.fields.map Field.align).foldl max 1

/-- Result of `sizeof` on a structure: the end of the last member rounded up
to the alignment of the structure. -/
def StructDecl.sizeof (s : StructDecl) : Nat :=
  alignUp (endFrom 0 s.fields) s.alignof

/-- Sum of the sizes of the declared members. -/
def StructDecl.declaredBytes (s : StructDecl) : Nat :=
  (s.fields.map Field.size).sum

/-- Bytes of a structure that belong to no declared member. -/
def StructDecl.implicitPadding (s : StructDecl) : Nat :=
  s.sizeof - s.declaredBytes

/-- Offset of the member called `n`, when there is one (`offsetof`). -/
def StructDecl.offsetOf (s : StructDecl) (n : String) : Option Nat :=
  (s.layout.find? (fun p => p.field.name == n)).map Placed.offset

/-- Every member starts where the previous one ends, the first one at `off`. -/
def contiguousFrom (off : Nat) : List Placed → Bool
  | [] => true
  | p :: ps => p.offset == off && contiguousFrom p.stop ps

/-- Version of the protocol: `#define STREAM_DEVICE_PROTOCOL 1`. -/
def STREAM_DEVICE_PROTOCOL : Nat := 1

/-- Declaration of `StreamDevHeader`. -/
def StreamDevHeader.decl : StructDecl :=
  ⟨"StreamDevHeader",
    [ ⟨"protocol_version", .uint8_t, none⟩
    , ⟨"padding", .uint8_t, none⟩
    , ⟨"type", .uint16_t, none⟩
    , ⟨"size", .uint32_t, none⟩ ]⟩

/-- Declaration of `StreamMsgCapabilities`. -/
def StreamMsgCapabilities.decl : StructDecl :=
  ⟨"StreamMsgCapabilities", [ ⟨"capabilities", .uint8_t, some 0⟩ ]⟩

/-- Declaration of `StreamMsgFormat`. -/
def StreamMsgFormat.decl : StructDecl :=
  ⟨"StreamMsgFormat",
    [ ⟨"width", .uint32_t, none⟩
    , ⟨"height", .uint32_t, none⟩
    , ⟨"codec", .uint8_t, none⟩
    , ⟨"padding1", .uint8_t, some 3⟩ ]⟩

/-- Declaration of `StreamMsgData`. -/
def StreamMsgData.decl : StructDecl :=
  ⟨"StreamMsgData", [ ⟨"data", .uint8_t, some 0⟩ ]⟩

/-- Declaration of `StreamMsgStartStop`. -/
def StreamMsgStartStop.decl : StructDecl :=
  ⟨"StreamMsgStartStop",
    [ ⟨"num_codecs", .uint8_t, none⟩
    , ⟨"codecs", .uint8_t, some 0⟩ ]⟩

/-- The five structures the header declares, in declaration order. -/
def allStructs : List StructDecl :=
  [ StreamDevHeader.decl, StreamMsgCapabilities.decl, StreamMsgFormat.decl,
    StreamMsgData.decl, StreamMsgStartStop.decl ]

/-- Size in bytes of a `StreamMsgStartStop` payload carrying `num_codecs`
entries in its trailing `codecs` array. -/
def StreamMsgStartStop.payloadSize (num_codecs : Nat) : Nat :=
  StreamMsgStartStop.decl.sizeof + num_codecs * CType.uint8_t.sizeof

/-! ## Message types -/

/-- The enumeration `StreamMsgType`. -/
inductive StreamMsgType where
  | STREAM_TYPE_INVALID
  | STREAM_TYPE_CAPABILITIES
  | STREAM_TYPE_FORMAT
  | STREAM_TYPE_DATA
  | STREAM_TYPE_START_STOP
  deriving DecidableEq, Repr

/-- Enumerators of `StreamMsgType` in declaration order, each with its
explicit initialiser when the header writes one. -/
def StreamMsgType.enumerators : List (StreamMsgType × Option Nat) :=
  [ (.STREAM_TYPE_INVALID, some 0)
  , (.STREAM_TYPE_CAPABILITIES, none)
  , (.STREAM_TYPE_FORMAT, none)
  , (.STREAM_TYPE_DATA, none)
  , (.STREAM_TYPE_START_STOP, none) ]

/-- The C rule for enumerator values: an explicit initialiser gives the
value, an enumerator without one is the previous value plus one (the first
is zero). -/
def enumValuesFrom {α : Type} (next : Nat) : List (α × Option Nat) → List (α × Nat)
  | [] => []
  | (a, v) :: es =>
    let n := v.getD next
    (a, n) :: enumValuesFrom (n + 1) es

/-- Enumerators of `StreamMsgType` with their values. -/
def StreamMsgType.values : List (StreamMsgType × Nat) :=
  enumValuesFrom 0 StreamMsgType.enumerators

/-- Discriminant of a message type. -/
def StreamMsgType.toNat (t : StreamMsgType) : Nat :=
  ((StreamMsgType.values.find? (fun p => p.1 == t)).map Prod.snd).getD 0

/-- The message type a value of the header field `type` denotes, if any. -/
def StreamMsgType.ofNat? (n : Nat) : Option StreamMsgType :=
  (StreamMsgType.values.find? (fun p => p.2 == n)).map Prod.fst

/-- The payload structure of a message type: a message of type
`STREAM_TYPE_XXX_YYY` is represented with the structure `StreamMsgXxxYyy`;
`STREAM_TYPE_INVALID` is not to be used and has none. -/
def StreamMsgType.payloadStruct : StreamMsgType → Option StructDecl
  | .STREAM_TYPE_INVALID => none
  | .STREAM_TYPE_CAPABILITIES => some StreamMsgCapabilities.decl
  | .STREAM_TYPE_FORMAT => some StreamMsgFormat.decl
  | .STREAM_TYPE_DATA => some StreamMsgData.decl
  | .STREAM_TYPE_START_STOP => some StreamMsgStartStop.decl

/-! ## Message values -/

/-- Value of a header: the four members of `StreamDevHeader`. -/
structure StreamDevHeader where
  protocol_version : Nat
  padding : Nat
  type : Nat
  size : Nat
  deriving DecidableEq, Repr

/-- Value of a `StreamMsgCapabilities`: the bytes of the trailing array. -/
structure StreamMsgCapabilities where
  capabilities : List Nat
  deriving DecidableEq, Repr

/-- Value of a `StreamMsgFormat`; `padding1` is reserved and carries no value. -/
structure StreamMsgFormat where
  width : Nat
  height : Nat
  codec : Nat
  deriving DecidableEq, Repr

/-- Value of a `StreamMsgData`: the bytes of the trailing array. -/
structure StreamMsgData where
  data : List Nat
  deriving DecidableEq, Repr

/-- Value of a `StreamMsgStartStop`: the count and the trailing array. -/
structure StreamMsgStartStop where
  num_codecs : Nat
  codecs : List Nat
  deriving DecidableEq, Repr

/-- A message of the protocol: one payload structure per usable message type. -/
inductive Message where
  | capabilities (m : StreamMsgCapabilities)
  | format (m : StreamMsgFormat)
  | data (m : StreamMsgData)
  | startStop (m : StreamMsgStartStop)
  deriving DecidableEq, Repr

/-- Message type a message is sent with. -/
def Message.type : Message → StreamMsgType
  | .capabilities _ => .STREAM_TYPE_CAPABILITIES
  | .format _ => .STREAM_TYPE_FORMAT
  | .data _ => .STREAM_TYPE_DATA
  | .startStop _ => .STREAM_TYPE_START_STOP

/-! ## Framing -/

/-- Little-endian image of `v` on `n` bytes. -/
def le : Nat → Nat → List Nat
  | 0, _ => []
  | n + 1, v => v % 256 :: le n (v / 256)

/-- Value of a little-endian byte sequence. -/
def fromLE : List Nat → Nat
  | [] => 0
  | b :: bs => b + 256 * fromLE bs

/-- Modelled from the spec: the error kinds of section 7, which the
repository does not declare. -/
inductive ErrorKind where
  | MalformedHeader
  | UnknownMessageType
  | IllegalStateTransition
  | InvalidPayload
  | ChannelClosed
  | ChannelIO
  deriving DecidableEq, Repr

/-- Modelled from the spec: the result of `decode` in section 4.1,
`message | NeedMoreData | Error`, which the repository does not declare. -/
inductive DecodeResult where
  | message (m : Message)
  | needMoreData
  | error (e : ErrorKind)
  deriving DecidableEq, Repr

/-- Modelled from the spec: the wire image of a header, which the repository
declares but does not serialise, is
`[version:u8][padding:u8=0][type:u16][size:u32]`, integers little-endian. -/
def StreamDevHeader.encode (h : StreamDevHeader) : List Nat :=
  le CType.uint8_t.sizeof h.protocol_version ++ le CType.uint8_t.sizeof h.padding ++
    le CType.uint16_t.sizeof h.type ++ le CType.uint32_t.sizeof h.size

/-- Modelled from the spec: the payload bytes of a message, which the
repository declares but does not serialise. Capabilities and Data are their
raw bytes, Format is `[width:u32][height:u32][codec:u8][pad:u8x3]` with the
padding zero, StartStop is `[num_codecs:u8][codecs: num_codecs bytes]`. -/
def Message.payload : Message → List Nat
  | .capabilities m => m.capabilities
  | .format m =>
    le CType.uint32_t.sizeof m.width ++ le CType.uint32_t.sizeof m.height ++
      le CType.uint8_t.sizeof m.codec ++ List.replicate 3 0
  | .data m => m.data
  | .startStop m => le CType.uint8_t.sizeof m.num_codecs ++ m.codecs

/-- Modelled from the spec: the framer, absent from the repository;
`encode(message)` produces the header, whose `size` is the payload length,
followed by the payload. -/
def encode (m : Message) : List Nat :=
  StreamDevHeader.encode ⟨STREAM_DEVICE_PROTOCOL, 0, m.type.toNat, m.payload.length⟩ ++ m.payload

/-- Modelled from the spec: reading back the four members of a header from
the first eight bytes of a buffer. -/
def StreamDevHeader.parse (buf : List Nat) : StreamDevHeader :=
  ⟨fromLE (buf.take 1), fromLE ((buf.drop 1).take 1),
   fromLE ((buf.drop 2).take 2), fromLE ((buf.drop 4).take 4)⟩

/-- Modelled from the spec: the payload shapes of section 6, read back from
exactly the declared number of payload bytes. A Capabilities payload is at
most 1024 bytes, a Format payload is the whole `StreamMsgFormat` with zero
padding, a StartStop payload holds its count byte and that many codec bytes;
a mismatch is `InvalidPayload`. No payload shape belongs to type 0, which is
reported as a type that cannot be received. -/
def decodePayload : StreamMsgType → List Nat → DecodeResult
  | .STREAM_TYPE_INVALID, _ => .error .UnknownMessageType
  | .STREAM_TYPE_CAPABILITIES, p =>
    if p.length ≤ 1024 then .message (.capabilities ⟨p⟩) else .error .InvalidPayload
  | .STREAM_TYPE_FORMAT, p =>
    if p.length = StreamMsgFormat.decl.sizeof ∧ p.drop 9 = [0, 0, 0] then
      .message (.format ⟨fromLE (p.take 4), fromLE ((p.drop 4).take 4), fromLE ((p.drop 8).take 1)⟩)
    else .error .InvalidPayload
  | .STREAM_TYPE_DATA, p => .message (.data ⟨p⟩)
  | .STREAM_TYPE_START_STOP, p =>
    match p with
    | [] => .error .InvalidPayload
    | n :: cs => if cs.length = n then .message (.startStop ⟨n, cs⟩) else .error .InvalidPayload

/-- Modelled from the spec: the deframer of section 4.1, absent from the
repository. It needs the 8 header bytes, rejects an unsupported version, a
non-zero reserved byte and a declared size above the sanity bound
`maxPayload` as `MalformedHeader`, rejects an unrecognised type as
`UnknownMessageType`, and yields a message only once `8 + size` bytes are
available. -/
def decode (maxPayload : Nat) (buf : List Nat) : DecodeResult :=
  if buf.length < StreamDevHeader.decl.sizeof then .needMoreData
  else
    let h := StreamDevHeader.parse buf
    if h.protocol_version ≠ STREAM_DEVICE_PROTOCOL then .error .MalformedHeader
    else if h.padding ≠ 0 then .error .MalformedHeader
    else
      match StreamMsgType.ofNat? h.type with
      | none => .error .UnknownMessageType
      | some t =>
        if maxPayload < h.size then .error .MalformedHeader
        else if buf.length < StreamDevHeader.decl.sizeof + h.size then .needMoreData
        else decodePayload t ((buf.drop StreamDevHeader.decl.sizeof).take h.size)

/-- A message that can be put on the wire: every byte below 256, the 32-bit
members of a Format below `2^32`, at most 1024 capability bytes, a codec
count that is one byte and equals the number of codecs listed, and a payload
within the sanity bound and the 32-bit `size` member. -/
def Message.Valid (maxPayload : Nat) (m : Message) : Prop :=
  m.payload.length ≤ maxPayload ∧ m.payload.length < 2 ^ 32 ∧
  match m with
  | .capabilities c => c.capabilities.length ≤ 1024 ∧ ∀ b ∈ c.capabilities, b < 256
  | .format f => f.width < 2 ^ 32 ∧ f.height < 2 ^ 32 ∧ f.codec < 256
  | .data d => ∀ b ∈ d.data, b < 256
  | .startStop s => s.num_codecs = s.codecs.length ∧ s.num_codecs < 256 ∧ ∀ b ∈ s.codecs, b < 256

/-! ## Delivery of messages -/

/-- Modelled from the spec: the four states of section 4.2, which the header
names only in a comment. -/
inductive State where
  | Initial
  | Idle
  | Ready
  | Streaming
  deriving DecidableEq, Repr

/-- Modelled from the spec: the session of section 3, absent from the
repository. It owns one state, the active stream while one exists (the most
recent accepted Format) and the permitted codec set of the last StartStop. -/
structure Session where
  state : State
  stream : Option StreamMsgFormat
  permitted : List Nat
  deriving DecidableEq, Repr

/-- Modelled from the spec: the outcome of one event of a session, absent
from the repository. The session moves on; or the request is rejected, the
error reported and the session remains in its current state (the policy of
section 7 for `InvalidPayload`); or the error is fatal and the session
closes. -/
inductive Outcome where
  | next (ses : Session)
  | rejected (e : ErrorKind) (ses : Session)
  | closed (e : ErrorKind)
  deriving DecidableEq, Repr

/-- Modelled from the spec: the Format validation of section 4.3, absent from
the repository: width and height are non-zero and the codec identifier is one
the external codec registry `is_supported` recognises; section 4.3 names no
other check. -/
def validFormat (is_supported : Nat → Bool) (f : StreamMsgFormat) : Bool :=
  f.width != 0 && f.height != 0 && is_supported f.codec

/-- Modelled from the spec: the StartStop rule of section 4.3 for a non-empty
codec list, absent from the repository: the current stream is force-stopped
only if its codec is not the always-supported baseline and is absent from the
new list; otherwise the existing stream continues uninterrupted. -/
def continues (baseline : Nat) (ses : Session) (codecs : List Nat) : Bool :=
  match ses.state, ses.stream with
  | .Streaming, some f => f.codec == baseline || codecs.contains f.codec
  | _, _ => false

/-- Modelled from the spec: the state machine and message handler of
sections 4.2 and 4.3, absent from the repository, for one event of the table
of section 4.2 as the Guest's engine sees it: the receipt of a Capabilities
or a StartStop, both of which come from the Host, or the sending of a Format
or a Data. The codec enumeration is not part of the header, so the baseline
codec and the codec registry are parameters. The session holds what the
table and the stream lifecycle read: the capability bits merged on a
Capabilities, its echo and the Data bytes forwarded to the frame sink go to
collaborators and change neither the state nor the stream.

* Capabilities moves Initial to Idle and is tolerated in every other state,
  which it leaves as it is.
* Format is legal only in Ready; a Format that fails validation is rejected
  as `InvalidPayload` without a transition, a valid one starts the stream and
  moves to Streaming.
* Data is legal only in Streaming, which it leaves as it is.
* StartStop is accepted everywhere and recomputes the permitted codec set;
  with zero codecs the stream stops and the state is Idle; with a non-empty
  list the existing stream continues when `continues` says so, and otherwise
  the stream stops and the state is Ready.
* A message that is illegal for the current state is a protocol violation:
  `IllegalStateTransition`, fatal, the session closes. -/
def deliver (baseline : Nat) (is_supported : Nat → Bool) (ses : Session) : Message → Outcome
  | .capabilities _ =>
    match ses.state with
    | .Initial => .next ⟨.Idle, ses.stream, ses.permitted⟩
    | _ => .next ses
  | .format f =>
    match ses.state with
    | .Ready =>
      if validFormat is_supported f then .next ⟨.Streaming, some f, ses.permitted⟩
      else .rejected .InvalidPayload ses
    | _ => .closed .IllegalStateTransition
  | .data _ =>
    match ses.state with
    | .Streaming => .next ses
    | _ => .closed .IllegalStateTransition
  | .startStop m =>
    if m.num_codecs = 0 then .next ⟨.Idle, none, m.codecs⟩
    else if continues baseline ses m.codecs then .next ⟨.Streaming, ses.stream, m.codecs⟩
    else .next ⟨.Ready, none, m.codecs⟩

/-- C1: `StreamDevHeader` is a fixed 8-byte record: `protocol_version` is one
byte at offset 0, `padding` one byte at offset 1, `type` a 2-byte unsigned
integer at offset 2 and `size` a 4-byte unsigned integer at offset 4; the four
members are contiguous and the size of the record is exactly 8 bytes. -/
theorem StreamDevHeader_layout :
    StreamDevHeader.decl.layout.map (fun p => (p.field.name, p.field.ty, p.offset, p.field.size)) =
      [ ("protocol_version", CType.uint8_t, 0, 1), ("padding", CType.uint8_t, 1, 1),
        ("type", CType.uint16_t, 2, 2), ("size", CType.uint32_t, 4, 4) ] ∧
    contiguousFrom 0 StreamDevHeader.decl.layout = true ∧
    StreamDevHeader.decl.declaredBytes = 8 ∧
    StreamDevHeader.decl.sizeof = 8 := by
  decide

/-- C2: the protocol version constant is 1 and the discriminants of
`StreamMsgType` are Invalid=0, Capabilities=1, Format=2, Data=3, StartStop=4,
pairwise distinct. -/
theorem wire_constants :
    STREAM_DEVICE_PROTOCOL = 1 ∧
    StreamMsgType.values =
      [ (.STREAM_TYPE_INVALID, 0), (.STREAM_TYPE_CAPABILITIES, 1), (.STREAM_TYPE_FORMAT, 2),
        (.STREAM_TYPE_DATA, 3), (.STREAM_TYPE_START_STOP, 4) ] ∧
    StreamMsgType.STREAM_TYPE_INVALID.toNat = 0 ∧
    StreamMsgType.STREAM_TYPE_CAPABILITIES.toNat = 1 ∧
    StreamMsgType.STREAM_TYPE_FORMAT.toNat = 2 ∧
    StreamMsgType.STREAM_TYPE_DATA.toNat = 3 ∧
    StreamMsgType.STREAM_TYPE_START_STOP.toNat = 4 ∧
    (StreamMsgType.values.map Prod.snd).Nodup ∧
    (∀ a b : StreamMsgType, a.toNat = b.toNat → a = b) := by
  refine ⟨by decide, by decide, by decide, by decide, by decide, by decide, by decide,
    by decide, ?_⟩
  intro a b
  cases a <;> cases b <;> decide

/-- C3, as stated, fails: the declared members of `StreamMsgFormat` occupy
12 bytes, not 11, and the layout adds no implicit alignment byte, not one. -/
theorem StreamMsgFormat_eleven_bytes_counterexample :
    ¬ (StreamMsgFormat.decl.declaredBytes = 11) ∧
    ¬ (StreamMsgFormat.decl.implicitPadding = 1) ∧
    ¬ (StreamMsgFormat.decl.declaredBytes + 1 = StreamMsgFormat.decl.sizeof) := by
  decide

/-- C3, amended: `StreamMsgFormat`, laid out as `width` (4-byte unsigned) at
offset 0, `height` (4-byte unsigned) at offset 4, `codec` (1 byte) at offset 8
and 3 bytes of padding at offset 9, occupies 12 bytes of declared members, and
no implicit alignment byte is added: its size is exactly 12 bytes. -/
theorem StreamMsgFormat_layout :
    StreamMsgFormat.decl.layout.map (fun p => (p.field.name, p.field.ty, p.offset, p.field.size)) =
      [ ("width", CType.uint32_t, 0, 4), ("height", CType.uint32_t, 4, 4),
        ("codec", CType.uint8_t, 8, 1), ("padding1", CType.uint8_t, 9, 3) ] ∧
    StreamMsgFormat.decl.declaredBytes = 12 ∧
    StreamMsgFormat.decl.implicitPadding = 0 ∧
    StreamMsgFormat.decl.sizeof = 12 := by
  decide

/-- C4, as stated, fails at one member: the zero-length array `codecs` of
`StreamMsgStartStop` has size 0 and offset 1, and 1 is not a multiple of 0. -/
theorem offset_multiple_of_size_counterexample :
    StreamMsgStartStop.decl ∈ allStructs ∧
    (⟨⟨"codecs", .uint8_t, some 0⟩, 1⟩ : Placed) ∈ StreamMsgStartStop.decl.layout ∧
    (⟨"codecs", .uint8_t, some 0⟩ : Field).size = 0 ∧
    ¬ ((⟨"codecs", .uint8_t, some 0⟩ : Field).size ∣ 1) := by
  decide

/-- C4, amended: every structure of the protocol is naturally aligned with no
implicit padding: the offset of each member is a multiple of the member's
alignment (the size of its integer type) and, whenever the member's size is
not zero, of the member's size; each member begins where the previous one
ends; the size of the structure equals the sum of the declared member sizes
(8, 0, 12, 0 and 1 bytes respectively) and is a multiple of its largest member
alignment. -/
theorem structs_naturally_aligned :
    allStructs.map StructDecl.sizeof = [8, 0, 12, 0, 1] ∧
    ∀ s ∈ allStructs,
      (∀ p ∈ s.layout, p.field.align ∣ p.offset ∧ (p.field.size ≠ 0 → p.field.size ∣ p.offset)) ∧
      contiguousFrom 0 s.layout = true ∧
      s.sizeof = s.declaredBytes ∧
      s.implicitPadding = 0 ∧
      s.alignof ∣ s.sizeof := by
  decide

/-- Witness of C4 amended, at the member `padding1` of `StreamMsgFormat`. -/
theorem structs_naturally_aligned_witness :
    (⟨"padding1", .uint8_t, some 3⟩ : Field).size ∣ 9 :=
  ((structs_naturally_aligned.2 StreamMsgFormat.decl (by decide)).1
    ⟨⟨"padding1", .uint8_t, some 3⟩, 9⟩ (by decide)).2 (by decide)

/-- C5: a StartStop payload is the count byte `num_codecs` at offset 0
followed, from offset 1, by `num_codecs` one-byte codec identifiers: for every
`num_codecs` in 0..255 its size is `1 + num_codecs` bytes, 1 byte for a stop
request and at most 256 bytes, and the fixed part of `StreamMsgStartStop` is
1 byte. -/
theorem StreamMsgStartStop_payload (num_codecs : Nat) (h : num_codecs ≤ 255) :
    StreamMsgStartStop.decl.layout.map (fun p => (p.field.name, p.field.ty, p.offset)) =
      [ ("num_codecs", CType.uint8_t, 0), ("codecs", CType.uint8_t, 1) ] ∧
    StreamMsgStartStop.decl.offsetOf "num_codecs" = some 0 ∧
    StreamMsgStartStop.decl.offsetOf "codecs" = some 1 ∧
    StreamMsgStartStop.decl.sizeof = 1 ∧
    StreamMsgStartStop.payloadSize num_codecs = 1 + num_codecs ∧
    StreamMsgStartStop.payloadSize 0 = 1 ∧
    1 ≤ StreamMsgStartStop.payloadSize num_codecs ∧
    StreamMsgStartStop.payloadSize num_codecs ≤ 256 := by
  have hs : StreamMsgStartStop.decl.sizeof = 1 := by decide
  have hp : StreamMsgStartStop.payloadSize num_codecs = 1 + num_codecs := by
    simp [StreamMsgStartStop.payloadSize, hs, CType.sizeof]
  refine ⟨by decide, by decide, by decide, hs, hp, by decide, ?_, ?_⟩ <;> omega

/-- Witness of C5 at the largest count, 255 codecs. -/
theorem StreamMsgStartStop_payload_witness :
    StreamMsgStartStop.payloadSize 255 = 1 + 255 ∧ StreamMsgStartStop.payloadSize 255 ≤ 256 :=
  ⟨(StreamMsgStartStop_payload 255 (by decide)).2.2.2.2.1,
   (StreamMsgStartStop_payload 255 (by decide)).2.2.2.2.2.2.2⟩

/-! ## The state machine -/

/-- The stream continues exactly in Streaming with an active stream whose
codec is the baseline or is in the list. -/
theorem continues_iff (baseline : Nat) (ses : Session) (codecs : List Nat) :
    continues baseline ses codecs = true ↔
      ses.state = .Streaming ∧
        ∃ f, ses.stream = some f ∧ (f.codec = baseline ∨ f.codec ∈ codecs) := by
  obtain ⟨st, sm, pm⟩ := ses
  cases st <;> cases sm <;> simp [continues]

/-- A StartStop is always accepted, with the result the handler computes. -/
theorem deliver_startStop (baseline : Nat) (is_supported : Nat → Bool) (ses : Session)
    (m : StreamMsgStartStop) :
    deliver baseline is_supported ses (.startStop m) =
      if m.num_codecs = 0 then .next ⟨.Idle, none, m.codecs⟩
      else if continues baseline ses m.codecs then .next ⟨.Streaming, ses.stream, m.codecs⟩
      else .next ⟨.Ready, none, m.codecs⟩ := by
  rfl

/-- C10: codec continuity. For every non-baseline codec C, in state Streaming
with active codec C, receiving a StartStop whose codec list contains C does
not change the state and does not stop the stream; receiving a StartStop
whose non-empty list omits C moves the state to Ready, and receiving one with
an empty list moves it to Idle. The StartStop is well formed: its count is
the length of its list. -/
theorem codec_continuity (baseline : Nat) (is_supported : Nat → Bool) (f : StreamMsgFormat)
    (permitted : List Nat) (m : StreamMsgStartStop)
    (hC : f.codec ≠ baseline) (hm : m.num_codecs = m.codecs.length) :
    (f.codec ∈ m.codecs →
      ∃ ses', deliver baseline is_supported ⟨.Streaming, some f, permitted⟩ (.startStop m) =
          .next ses' ∧
        ses'.state = .Streaming ∧ ses'.stream = some f) ∧
    (m.codecs ≠ [] → f.codec ∉ m.codecs →
      ∃ ses', deliver baseline is_supported ⟨.Streaming, some f, permitted⟩ (.startStop m) =
          .next ses' ∧
        ses'.state = .Ready ∧ ses'.stream = none) ∧
    (m.codecs = [] →
      ∃ ses', deliver baseline is_supported ⟨.Streaming, some f, permitted⟩ (.startStop m) =
          .next ses' ∧
        ses'.state = .Idle ∧ ses'.stream = none) := by
  rw [deliver_startStop]
  refine ⟨?_, ?_, ?_⟩
  · intro hmem
    have h0 : m.num_codecs ≠ 0 := by
      rw [hm]
      exact Nat.ne_of_gt (List.length_pos_of_mem hmem)
    have hc : continues baseline ⟨.Streaming, some f, permitted⟩ m.codecs = true :=
      (continues_iff baseline _ m.codecs).2 ⟨rfl, f, rfl, Or.inr hmem⟩
    rw [if_neg h0, hc]
    exact ⟨_, rfl, rfl, rfl⟩
  · intro hne hnot
    have h0 : m.num_codecs ≠ 0 := by
      rw [hm]
      exact Nat.ne_of_gt (List.length_pos.2 hne)
    have hc : continues baseline ⟨.Streaming, some f, permitted⟩ m.codecs = false := by
      cases hc : continues baseline ⟨.Streaming, some f, permitted⟩ m.codecs
      · rfl
      · obtain ⟨-, g, hg, hcodec⟩ := (continues_iff baseline _ m.codecs).1 hc
        cases hg
        rcases hcodec with h | h
        · exact absurd h hC
        · exact absurd h hnot
    rw [if_neg h0, hc]
    exact ⟨_, rfl, rfl, rfl⟩
  · intro hnil
    have h0 : m.num_codecs = 0 := by rw [hm, hnil]; rfl
    rw [if_pos h0]
    exact ⟨_, rfl, rfl, rfl⟩

/-- Witness of C10, with baseline codec 1 and active codec 2: a list that
contains 2, a non-empty list that omits 2, and the empty list. -/
theorem codec_continuity_witness :
    (∃ ses', deliver 1 (fun _ => true) ⟨.Streaming, some ⟨1920, 1080, 2⟩, [1, 2]⟩
        (.startStop ⟨2, [1, 2]⟩) = .next ses' ∧
      ses'.state = .Streaming ∧ ses'.stream = some ⟨1920, 1080, 2⟩) ∧
    (∃ ses', deliver 1 (fun _ => true) ⟨.Streaming, some ⟨1920, 1080, 2⟩, [1, 2]⟩
        (.startStop ⟨2, [1, 3]⟩) = .next ses' ∧
      ses'.state = .Ready ∧ ses'.stream = none) ∧
    (∃ ses', deliver 1 (fun _ => true) ⟨.Streaming, some ⟨1920, 1080, 2⟩, [1, 2]⟩
        (.startStop ⟨0, []⟩) = .next ses' ∧
      ses'.state = .Idle ∧ ses'.stream = none) :=
  ⟨(codec_continuity 1 (fun _ => true) ⟨1920, 1080, 2⟩ [1, 2] ⟨2, [1, 2]⟩
      (by decide) rfl).1 (by decide),
   (codec_continuity 1 (fun _ => true) ⟨1920, 1080, 2⟩ [1, 2] ⟨2, [1, 3]⟩
      (by decide) rfl).2.1 (by decide) (by decide),
   (codec_continuity 1 (fun _ => true) ⟨1920, 1080, 2⟩ [1, 2] ⟨0, []⟩
      (by decide) rfl).2.2 rfl⟩

/-! ## Framing -/

/-- The image of a value on `n` bytes has `n` bytes. -/
theorem le_length (n v : Nat) : (le n v).length = n := by
  induction n generalizing v with
  | zero => rfl
  | succ k ih => simp [le, ih]

/-- Every element of a little-endian image is a byte. -/
theorem le_lt (n v : Nat) : ∀ b ∈ le n v, b < 256 := by
  induction n generalizing v with
  | zero => intro b hb; simp [le] at hb
  | succ k ih =>
    intro b hb
    simp only [le, List.mem_cons] at hb
    rcases hb with rfl | hb
    · exact Nat.mod_lt _ (by decide)
    · exact ih _ b hb

/-- The header image is the eight bytes of its members in declaration order. -/
theorem StreamDevHeader.encode_eq (h : StreamDevHeader) :
    h.encode =
      [ h.protocol_version % 256, h.padding % 256,
        h.type % 256, h.type / 256 % 256,
        h.size % 256, h.size / 256 % 256, h.size / 256 / 256 % 256,
        h.size / 256 / 256 / 256 % 256 ] := by
  rfl

/-- Reading back a header image gives the members, each reduced to its width. -/
theorem StreamDevHeader.parse_encode (h : StreamDevHeader) (rest : List Nat) :
    StreamDevHeader.parse (h.encode ++ rest) =
      ⟨h.protocol_version % 256, h.padding % 256, h.type % 65536, h.size % 2 ^ 32⟩ := by
  rw [StreamDevHeader.encode_eq]
  simp only [StreamDevHeader.parse, List.cons_append, List.nil_append, List.take, List.drop,
    fromLE, StreamDevHeader.mk.injEq]
  refine ⟨by omega, by omega, by omega, by omega⟩

/-- The values of the enumeration, computed. -/
theorem StreamMsgType.values_eq :
    StreamMsgType.values =
      [ (.STREAM_TYPE_INVALID, 0), (.STREAM_TYPE_CAPABILITIES, 1), (.STREAM_TYPE_FORMAT, 2),
        (.STREAM_TYPE_DATA, 3), (.STREAM_TYPE_START_STOP, 4) ] := by
  decide

/-- Discriminants are at most 4. -/
theorem StreamMsgType.toNat_le (t : StreamMsgType) : t.toNat ≤ 4 := by
  cases t <;> decide

/-- A discriminant denotes the type it is the discriminant of. -/
theorem StreamMsgType.ofNat?_toNat (t : StreamMsgType) : StreamMsgType.ofNat? t.toNat = some t := by
  cases t <;> decide

/-- Values from 5 on denote no message type. -/
theorem StreamMsgType.ofNat?_none (n : Nat) (h : 5 ≤ n) : StreamMsgType.ofNat? n = none := by
  have h0 : (0 == n) = false := by simp; omega
  have h1 : (1 == n) = false := by simp; omega
  have h2 : (2 == n) = false := by simp; omega
  have h3 : (3 == n) = false := by simp; omega
  have h4 : (4 == n) = false := by simp; omega
  simp [StreamMsgType.ofNat?, StreamMsgType.values_eq, List.find?, h0, h1, h2, h3, h4]

/-- Decoding a frame: a well-formed header followed by the payload it
declares decodes as that payload. -/
theorem decode_frame (maxPayload : Nat) (t : StreamMsgType) (p rest : List Nat)
    (h₁ : p.length ≤ maxPayload) (h₂ : p.length < 2 ^ 32) :
    decode maxPayload
        (StreamDevHeader.encode ⟨STREAM_DEVICE_PROTOCOL, 0, t.toNat, p.length⟩ ++ p ++ rest) =
      decodePayload t p := by
  have key : ∀ hb : List Nat, hb.length = 8 →
      StreamDevHeader.parse (hb ++ (p ++ rest)) = ⟨1, 0, t.toNat, p.length⟩ →
      decode maxPayload (hb ++ p ++ rest) = decodePayload t p := by
    intro hb hlen hparse
    have hsz : StreamDevHeader.decl.sizeof = 8 := by decide
    have h3 : ¬ (8 + (p.length + rest.length) < 8) := by omega
    have h4 : ¬ (maxPayload < p.length) := by omega
    have h5 : ¬ (8 + (p.length + rest.length) < 8 + p.length) := by omega
    unfold decode
    rw [List.append_assoc, hparse, hsz, List.drop_left' hlen]
    simp [hlen, STREAM_DEVICE_PROTOCOL, StreamMsgType.ofNat?_toNat, h3, h4, h5]
  apply key
  · rw [StreamDevHeader.encode_eq]; rfl
  · rw [StreamDevHeader.parse_encode]
    have ht : t.toNat % 65536 = t.toNat := Nat.mod_eq_of_lt (by have := t.toNat_le; omega)
    have hp : p.length % 2 ^ 32 = p.length := Nat.mod_eq_of_lt h₂
    rw [ht, hp]
    rfl

/-- The Format payload is the twelve bytes of its members in declaration order. -/
theorem Message.payload_format (f : StreamMsgFormat) :
    (Message.format f).payload =
      [ f.width % 256, f.width / 256 % 256, f.width / 256 / 256 % 256,
        f.width / 256 / 256 / 256 % 256,
        f.height % 256, f.height / 256 % 256, f.height / 256 / 256 % 256,
        f.height / 256 / 256 / 256 % 256,
        f.codec % 256, 0, 0, 0 ] := by
  rfl

/-- The payload of a valid message decodes as the message. -/
theorem decodePayload_payload (maxPayload : Nat) (m : Message) (h : m.Valid maxPayload) :
    decodePayload m.type m.payload = .message m := by
  obtain ⟨-, -, h⟩ := h
  cases m with
  | capabilities c =>
    obtain ⟨hl, -⟩ := h
    simp [Message.type, Message.payload, decodePayload, hl]
  | format f =>
    obtain ⟨hw, hh, hc⟩ := h
    have hs : StreamMsgFormat.decl.sizeof = 12 := by decide
    rw [Message.payload_format]
    simp only [Message.type, decodePayload, hs, List.length_cons, List.length_nil, List.drop,
      List.take, fromLE, and_self, if_true, zero_add, Nat.reduceAdd]
    have e1 : f.width % 256 + 256 * (f.width / 256 % 256 + 256 * (f.width / 256 / 256 % 256 +
        256 * (f.width / 256 / 256 / 256 % 256 + 256 * 0))) = f.width := by omega
    have e2 : f.height % 256 + 256 * (f.height / 256 % 256 + 256 * (f.height / 256 / 256 % 256 +
        256 * (f.height / 256 / 256 / 256 % 256 + 256 * 0))) = f.height := by omega
    have e3 : f.codec % 256 + 256 * 0 = f.codec := by omega
    rw [e1, e2, e3]
  | data d =>
    simp [Message.type, Message.payload, decodePayload]
  | startStop c =>
    obtain ⟨hn, hb, -⟩ := h
    have e : c.num_codecs % 256 = c.num_codecs := Nat.mod_eq_of_lt hb
    simp [Message.type, Message.payload, decodePayload, le, CType.sizeof, e, hn.symm]

/-- Every byte of the payload of a valid message is below 256. -/
theorem payload_lt (maxPayload : Nat) (m : Message) (h : m.Valid maxPayload) :
    ∀ b ∈ m.payload, b < 256 := by
  obtain ⟨-, -, h⟩ := h
  cases m with
  | capabilities c => exact h.2
  | format f =>
    intro b hb
    simp only [Message.payload, List.mem_append, List.mem_replicate] at hb
    rcases hb with ((hb | hb) | hb) | hb
    · exact le_lt _ _ b hb
    · exact le_lt _ _ b hb
    · exact le_lt _ _ b hb
    · omega
  | data d => exact h
  | startStop c =>
    intro b hb
    simp only [Message.payload, List.mem_append] at hb
    rcases hb with hb | hb
    · exact le_lt _ _ b hb
    · exact h.2.2 b hb

/-- C6: the set of message types is closed. A 16-bit value of the header
member `type` denotes a `StreamMsgType` exactly when it is one of 0, 1, 2, 3,
4; a value of 5 or more denotes none and a frame carrying it is rejected as
`UnknownMessageType`; the value 0 (Invalid) is never the type of a message
that is sent and a frame carrying it never decodes to a message; each of the
types 1..4 has exactly one payload structure, Capabilities, Format, Data and
StartStop, pairwise distinct. -/
theorem message_types_closed (n : Nat) (hn : n < 65536) :
    ((StreamMsgType.ofNat? n).isSome = true ↔ n ∈ [0, 1, 2, 3, 4]) ∧
    (∀ t : StreamMsgType, StreamMsgType.ofNat? n = some t ↔ t.toNat = n) ∧
    (5 ≤ n → StreamMsgType.ofNat? n = none ∧
      ∀ (maxPayload size : Nat) (rest : List Nat),
        decode maxPayload (StreamDevHeader.encode ⟨STREAM_DEVICE_PROTOCOL, 0, n, size⟩ ++ rest) =
          .error .UnknownMessageType) ∧
    (∀ m : Message, m.type ≠ .STREAM_TYPE_INVALID ∧ m.type.toNat ≠ 0 ∧
      (StreamDevHeader.parse (encode m)).type ≠ 0) ∧
    (∀ (maxPayload size : Nat) (rest : List Nat) (m : Message),
      decode maxPayload (StreamDevHeader.encode ⟨STREAM_DEVICE_PROTOCOL, 0, 0, size⟩ ++ rest) ≠
        .message m) ∧
    StreamMsgType.payloadStruct .STREAM_TYPE_INVALID = none ∧
    (StreamMsgType.ofNat? 1).bind StreamMsgType.payloadStruct = some StreamMsgCapabilities.decl ∧
    (StreamMsgType.ofNat? 2).bind StreamMsgType.payloadStruct = some StreamMsgFormat.decl ∧
    (StreamMsgType.ofNat? 3).bind StreamMsgType.payloadStruct = some StreamMsgData.decl ∧
    (StreamMsgType.ofNat? 4).bind StreamMsgType.payloadStruct = some StreamMsgStartStop.decl ∧
    [StreamMsgCapabilities.decl, StreamMsgFormat.decl, StreamMsgData.decl,
      StreamMsgStartStop.decl].Nodup := by
  have hcases : n = 0 ∨ n = 1 ∨ n = 2 ∨ n = 3 ∨ n = 4 ∨ 5 ≤ n := by omega
  have hlen : ∀ h : StreamDevHeader, h.encode.length = 8 := fun h => by
    rw [StreamDevHeader.encode_eq]; rfl
  refine ⟨?_, ?_, ?_, ?_, ?_, by decide, by decide, by decide, by decide, by decide, by decide⟩
  · rcases hcases with rfl | rfl | rfl | rfl | rfl | h
    · decide
    · decide
    · decide
    · decide
    · decide
    · rw [StreamMsgType.ofNat?_none n h]
      simp
      omega
  · intro t
    constructor
    · intro h
      rcases hcases with rfl | rfl | rfl | rfl | rfl | h5
      · revert h; cases t <;> decide
      · revert h; cases t <;> decide
      · revert h; cases t <;> decide
      · revert h; cases t <;> decide
      · revert h; cases t <;> decide
      · rw [StreamMsgType.ofNat?_none n h5] at h
        exact absurd h (by simp)
    · intro h
      rw [← h]
      exact StreamMsgType.ofNat?_toNat t
  · intro h5
    refine ⟨StreamMsgType.ofNat?_none n h5, ?_⟩
    intro maxPayload size rest
    have hsz : StreamDevHeader.decl.sizeof = 8 := by decide
    have hmod : n % 65536 = n := Nat.mod_eq_of_lt hn
    unfold decode
    rw [StreamDevHeader.parse_encode, hsz]
    simp [hlen, STREAM_DEVICE_PROTOCOL, hmod, StreamMsgType.ofNat?_none n h5]
  · intro m
    have h0 : m.type.toNat ≠ 0 := by
      cases m <;> dsimp only [Message.type] <;> decide
    refine ⟨by cases m <;> dsimp only [Message.type] <;> decide, h0, ?_⟩
    unfold encode
    rw [StreamDevHeader.parse_encode]
    have := m.type.toNat_le
    show m.type.toNat % 65536 ≠ 0
    omega
  · intro maxPayload size rest m
    have hsz : StreamDevHeader.decl.sizeof = 8 := by decide
    have h0 : StreamMsgType.ofNat? 0 = some .STREAM_TYPE_INVALID := by decide
    unfold decode
    rw [StreamDevHeader.parse_encode, hsz]
    simp only [hlen, STREAM_DEVICE_PROTOCOL, List.length_append, Nat.zero_mod, h0, decodePayload]
    split_ifs <;> simp

/-- Witness of C6 at the type values 5 and 65535. -/
theorem message_types_closed_witness :
    StreamMsgType.ofNat? 5 = none ∧
    decode 4096 (StreamDevHeader.encode ⟨STREAM_DEVICE_PROTOCOL, 0, 65535, 0⟩ ++ []) =
      .error .UnknownMessageType :=
  ⟨((message_types_closed 5 (by decide)).2.2.1 (by decide)).1,
   ((message_types_closed 65535 (by decide)).2.2.1 (by decide)).2 4096 0 []⟩

/-- C7: framing round-trips. For every valid message, Capabilities and Data
with no bytes included, decoding the encoded message gives the message back,
also when further bytes follow it in the buffer; the encoding is the 8-byte
header, carrying the version, a zero reserved byte, the type and the payload
length, followed by exactly the declared number of payload bytes, and every
element of it is a byte. -/
theorem decode_encode (maxPayload : Nat) (m : Message) (h : m.Valid maxPayload) :
    decode maxPayload (encode m) = .message m ∧
    (∀ rest : List Nat, decode maxPayload (encode m ++ rest) = .message m) ∧
    StreamDevHeader.parse (encode m) =
      ⟨STREAM_DEVICE_PROTOCOL, 0, m.type.toNat, m.payload.length⟩ ∧
    (encode m).take StreamDevHeader.decl.sizeof =
      StreamDevHeader.encode ⟨STREAM_DEVICE_PROTOCOL, 0, m.type.toNat, m.payload.length⟩ ∧
    (encode m).drop StreamDevHeader.decl.sizeof = m.payload ∧
    (encode m).length = StreamDevHeader.decl.sizeof + (StreamDevHeader.parse (encode m)).size ∧
    (encode m).length = 8 + m.payload.length ∧
    (∀ b ∈ encode m, b < 256) := by
  have hv := h
  obtain ⟨h₁, h₂, -⟩ := h
  have hsz : StreamDevHeader.decl.sizeof = 8 := by decide
  have hlen : (StreamDevHeader.encode
      ⟨STREAM_DEVICE_PROTOCOL, 0, m.type.toNat, m.payload.length⟩).length = 8 := by
    rw [StreamDevHeader.encode_eq]; rfl
  have hrest : ∀ rest : List Nat, decode maxPayload (encode m ++ rest) = .message m := by
    intro rest
    unfold encode
    rw [decode_frame maxPayload m.type m.payload rest h₁ h₂]
    exact decodePayload_payload maxPayload m hv
  have hparse : StreamDevHeader.parse (encode m) =
      ⟨STREAM_DEVICE_PROTOCOL, 0, m.type.toNat, m.payload.length⟩ := by
    unfold encode
    rw [StreamDevHeader.parse_encode]
    have ht : m.type.toNat % 65536 = m.type.toNat :=
      Nat.mod_eq_of_lt (by have := m.type.toNat_le; omega)
    have hp : m.payload.length % 2 ^ 32 = m.payload.length := Nat.mod_eq_of_lt h₂
    rw [ht, hp]
    rfl
  refine ⟨?_, hrest, hparse, ?_, ?_, ?_, ?_, ?_⟩
  · have := hrest []
    rwa [List.append_nil] at this
  · rw [hsz]
    unfold encode
    exact List.take_left' hlen
  · rw [hsz]
    unfold encode
    exact List.drop_left' hlen
  · rw [hparse, hsz]
    unfold encode
    rw [List.length_append, hlen]
  · unfold encode
    rw [List.length_append, hlen]
  · intro b hb
    unfold encode at hb
    rw [List.mem_append] at hb
    rcases hb with hb | hb
    · rw [StreamDevHeader.encode_eq] at hb
      simp only [List.mem_cons, List.mem_singleton, List.not_mem_nil, or_false] at hb
      rcases hb with rfl | rfl | rfl | rfl | rfl | rfl | rfl | rfl <;>
        exact Nat.mod_lt _ (by decide)
    · exact payload_lt maxPayload m hv b hb

/-- Witness of C7: an empty Capabilities message, an empty Data message, a
Format message and a StartStop message with two codecs. -/
theorem decode_encode_witness :
    decode 4096 (encode (.capabilities ⟨[]⟩)) = .message (.capabilities ⟨[]⟩) ∧
    decode 4096 (encode (.data ⟨[]⟩)) = .message (.data ⟨[]⟩) ∧
    decode 4096 (encode (.format ⟨1920, 1080, 2⟩)) = .message (.format ⟨1920, 1080, 2⟩) ∧
    decode 4096 (encode (.startStop ⟨2, [1, 2]⟩)) = .message (.startStop ⟨2, [1, 2]⟩) :=
  ⟨(decode_encode 4096 (.capabilities ⟨[]⟩) (by simp [Message.Valid, Message.payload])).1,
   (decode_encode 4096 (.data ⟨[]⟩) (by simp [Message.Valid, Message.payload])).1,
   (decode_encode 4096 (.format ⟨1920, 1080, 2⟩)
     (by simp [Message.Valid, Message.payload, le_length, CType.sizeof])).1,
   (decode_encode 4096 (.startStop ⟨2, [1, 2]⟩)
     (by simp [Message.Valid, Message.payload, le_length, CType.sizeof])).1⟩

end StreamDevice
